import Mathlib

/-!
Verification of the granularity incremental-computation engine.

The definitions below are a shallow embedding of the Rust sources:
versioning.rs (versions), runtime.rs (runtime version bookkeeping, `eval`,
`memo`, node-identity handles), stream.rs (producer/consumer stream) and
value.rs (value nodes).  Machine integers (`u64` counters) are modelled as
`Nat`: the counters only ever increment by one and no claim involves
wraparound.  Rust panics are modelled as `Except String`.  The "currently
evaluating node" cell and the runtime's version cell are threaded as
explicit state.
-/

namespace Granularity

/-! ## versioning.rs -/

/-- `Version` from versioning.rs: a `u64` counter whose only operations are
comparison and `bump` (increment by one). -/
abbrev Version := Nat

/-- `ValueVersion` from versioning.rs: the version a value was last changed,
and the version it was last validated.  `Default` derives to `{0, 0}`. -/
structure ValueVersion where
  changed : Nat
  validated : Nat
deriving Repr, DecidableEq

/-- The `Default::default()` value of `ValueVersion`: both counters zero. -/
def ValueVersion.init : ValueVersion := { changed := 0, validated := 0 }

/-! ## runtime.rs: version bookkeeping

`Runtime` holds a `Cell<ValueVersion>`; each operation below takes the cell
contents and returns the new cell contents together with the Rust return
value. -/

/-- `Runtime::change_version`: if the current change got validated
(`validated == changed`), bump `changed` and store it; return `changed`. -/
def changeVersion (s : ValueVersion) : ValueVersion × Version :=
  if s.validated = s.changed then
    let s' := { s with changed := s.changed + 1 }
    (s', s'.changed)
  else
    (s, s.changed)

/-- `Runtime::validated_version`: if `validated < changed`, set
`validated := changed`; return `validated`. -/
def validatedVersion (s : ValueVersion) : ValueVersion × Version :=
  if s.validated < s.changed then
    let s' := { s with validated := s.changed }
    (s', s'.validated)
  else
    (s, s.validated)

/-- `Runtime::new_var_version`: returns the runtime's current
`ValueVersion` unchanged. -/
def newVarVersion (s : ValueVersion) : ValueVersion × ValueVersion :=
  (s, s)

/-- `Runtime::new_computed_version`: calls `change_version`, then pairs the
returned `changed` version with the runtime's (unmodified) `validated`. -/
def newComputedVersion (s : ValueVersion) : ValueVersion × ValueVersion :=
  let p := changeVersion s
  (p.1, { changed := p.2, validated := p.1.validated })

/-- The invariant `set_version` debug-asserts: `changed >= validated`. -/
abbrev versionInvariant (s : ValueVersion) : Prop :=
  s.validated ≤ s.changed

/-! ## runtime.rs: `eval` and the current-evaluator slot

A node is identified by a numeric id.  The runtime state visible to `eval`
is the `current : Cell<Option<NodePtr>>` slot together with whatever other
state the closure mutates (abstracted as `α`).  A Rust panic raised by the
closure is modelled as `Except.error` carrying the state at the moment of
the panic, so that the state an unwinding observer would see is explicit. -/

/-- Runtime state seen by `eval`: the current-evaluator slot plus the rest
of the mutable state (abstract). -/
structure EvalState (α : Type) where
  current : Option Nat
  rest : α
deriving Repr, DecidableEq

/-- `Runtime::eval` from runtime.rs: save `prev := current`, set `current`
to the evaluated node, run `f`, then set `current := prev`.  The restore is
a plain statement after `f()` — there is no drop guard — so when `f`
panics (the `Except.error` case) the restore statement is never reached and
the propagated state keeps whatever `f` left in the slot. -/
def eval (n : Nat) (f : EvalState α → Except (ε × EvalState α) (EvalState α))
    (s : EvalState α) : Except (ε × EvalState α) (EvalState α) :=
  let prev := s.current
  match f { s with current := some n } with
  | .ok s2 => .ok { s2 with current := prev }
  | .error e => .error e

/-! ## runtime.rs: `memo`

`Runtime::memo(key, compute)` builds a computed node whose compute closure
owns `prev : Option<(K, T)>`.  One invocation of that closure is embedded
below; `k` is the value `key()` produced this time (the key closure is
always invoked first), `eqK` is `K`'s `PartialEq`, and the outputs record
the resulting value, the new `prev` cache and how often `compute` ran. -/

structure MemoOutcome (K T : Type) where
  result : T
  cache : Option (K × T)
  keyInvocations : Nat
  computeInvocations : Nat
deriving Repr, DecidableEq

/-- One run of the closure created by `Runtime::memo`: evaluate the key; if
a previous `(key, value)` pair exists and the new key equals the previous
key, return the previous value without touching the cache or calling
`compute`; otherwise call `compute`, store `(key, value)` and return the
value. -/
def memoBody (eqK : K → K → Bool) (compute : K → T) (prev : Option (K × T))
    (k : K) : MemoOutcome K T :=
  match prev with
  | some (prevKey, prevValue) =>
    if eqK k prevKey then
      { result := prevValue, cache := prev, keyInvocations := 1
        computeInvocations := 0 }
    else
      let v := compute k
      { result := v, cache := some (k, v), keyInvocations := 1
        computeInvocations := 1 }
  | none =>
    let v := compute k
    { result := v, cache := some (k, v), keyInvocations := 1
      computeInvocations := 1 }

/-! ## runtime.rs: node identity (`NodePtr`, `RefCellNodeHandle`)

A Rust pointer to a trait object is a fat pointer: the address of the data
and the address of a vtable.  The vtable half is per-coercion-site
metadata the compiler may duplicate (the source's own comment: "trait
objects can't be compared ... because their vtable pointer is not
stable").  A fat pointer is embedded as an (address, metadata) pair; a
hash impl is embedded by the byte stream it writes into the `Hasher`, so
equal streams give equal hash values for every hasher and distinct streams
are distinguished by some hasher. -/

/-- A `*const dyn Node` fat pointer: data address plus vtable metadata. -/
structure FatPtr where
  addr : Nat
  meta : Nat
deriving Repr, DecidableEq

/-- `PartialEq for NodePtr`: `self.0.cast::<()>() == other.0.cast()` —
casting to a thin pointer discards the metadata, so only the data
addresses are compared. -/
def nodePtrEq (p q : FatPtr) : Bool :=
  p.addr == q.addr

/-- `Hash for NodePtr`: `self.0.cast::<()>().hash(state)` — the thin
pointer written to the hasher; the stream consists of the address only. -/
def nodePtrHashStream (p : FatPtr) : List Nat :=
  [p.addr]

/-- `PartialEq for RefCellNodeHandle`: compares `self.0.as_ptr()`, i.e. the
`NodePtr` of the node storage, which again compares data addresses only. -/
def refCellNodeHandleEq (p q : FatPtr) : Bool :=
  p.addr == q.addr

/-- `Hash for RefCellNodeHandle`: `Rc::as_ptr(&self.0).hash(state)` hashes
the raw `*const dyn RefCellNode` fat pointer, which writes both the data
address and the vtable metadata into the hasher. -/
def refCellNodeHandleHashStream (p : FatPtr) : List Nat :=
  [p.addr, p.meta]

/-! ## stream.rs: Producer / Consumer

The chain of `Element` cells is append-only: once written, a cell's
`(value, next)` never changes, and `Producer::produce` only ever writes
the unwritten tail cell.  The observable contents of the chain are
therefore the list of values produced so far, and a `Consumer` is a cursor
into that list (its `next` field points at the cell holding the value at
its position).  `Consumer::drain_one` either moves the value out (when the
consumer uniquely owns the cell) or clones it (when a sibling consumer
still shares the cell); both branches yield the value at the cursor and
advance the cursor by one, and neither alters any cell another consumer
can reach. -/

/-- A consumer's read position in the produced log. -/
structure Consumer where
  pos : Nat
deriving Repr, DecidableEq

/-- `Clone for Consumer`: the clone shares the current cell, i.e. starts
at the same position. -/
def cloneConsumer (c : Consumer) : Consumer :=
  c

/-- `Producer::produce`: writes the value into the tail cell and appends a
fresh unwritten end, i.e. appends the value to the log. -/
def produce (log : List T) (v : T) : List T :=
  log ++ [v]

/-- A sequence of `Producer::produce` calls. -/
def produceAll (log : List T) (vs : List T) : List T :=
  log ++ vs

/-- `Consumer::drain_one`: if a written cell is at the cursor, yield its
value and advance; at the unwritten end, yield nothing. -/
def drainOne (log : List T) (c : Consumer) : Option T × Consumer :=
  match log.get? c.pos with
  | some v => (some v, { pos := c.pos + 1 })
  | none => (none, c)

/-- `Consumer::drain`: repeatedly `drain_one` until it yields `None`,
collecting the values. -/
def drain (log : List T) (c : Consumer) : List T × Consumer :=
  match h : log.get? c.pos with
  | some v =>
    let r := drain log { pos := c.pos + 1 }
    (v :: r.1, r.2)
  | none => ([], c)
termination_by log.length - c.pos
decreasing_by
  simp only [List.get?_eq_getElem?] at h
  have hlt : c.pos < log.length := by
    by_contra hge
    rw [List.getElem?_eq_none (Nat.le_of_not_lt hge)] at h
    exact Option.noConfusion h
  omega

/-! ## value.rs: the `Primitive` node payload and its contract violations

`Primitive<T>` is either `Var(T)` or `Computed { value: Option<..>, .. }`.
The compute closure and the trace are irrelevant to the operations below
and are omitted; a panic is `Except.error` with the source's message. -/

inductive Primitive (V : Type) where
  | var (value : V)
  | computed (value : Option V)
deriving Repr, DecidableEq

/-- `Primitive::apply` from value.rs: replace a `Var`'s value with `f`
applied to it; `panic!("Cannot set a computed value")` on a `Computed`.
`Value::set(x)` is `apply(|_| x)`. -/
def Primitive.apply (p : Primitive V) (f : V → V) : Except String (Primitive V) :=
  match p with
  | .var v => .ok (.var (f v))
  | .computed _ => .error "Cannot set a computed value"

/-- `ValueInner::take` from value.rs: after `ensure_valid` (whose effect on
a `Computed`'s cached value is abstracted as `ev`; on a `Var` it does
nothing), a `Var` hits `panic!("Cannot take a var")`; a `Computed` moves
its cached value out (`unwrap` panics when it is still `None`) and
invalidates itself, clearing the cache. -/
def takeValue (ev : Option V → Option V) (p : Primitive V) :
    Except String (V × Primitive V) :=
  match p with
  | .var _ => .error "Cannot take a var"
  | .computed c =>
    match ev c with
    | some v => .ok (v, .computed none)
    | none => .error "called Option unwrap on a None value"

/-- `ValueInner::track_read_from` from value.rs: a `Var` asked to record an
outgoing dependency edge hits `panic!("A var does not support tracing
dependencies")`; a `Computed` pushes the entry onto its trace. -/
def trackReadFrom (p : Primitive V) (trace : List E) (entry : E) :
    Except String (List E) :=
  match p with
  | .var _ => .error "A var does not support tracing dependencies"
  | .computed _ => .ok (trace ++ [entry])

/-! ## value.rs: `Value::ensure_valid_and_track_read`

`try_borrow_mut` on the node's `RefCell` fails whenever the cell is
borrowed at all, which happens in two distinct situations: another
`get_ref` `Ref` is still alive (a shared borrow), or this node is being
evaluated higher on the current call stack — the `RefMut` taken for
`ensure_valid` is held across the compute call (a self-reference/cycle,
an exclusive borrow).  The fallback branch then calls `self.0.borrow()`:
with only shared borrows outstanding this succeeds, `debug_assert!`s that
the node is valid (cached value present), records the read and returns
without entering `ensure_valid`; with the exclusive borrow outstanding,
`borrow()` itself panics with a `BorrowError` and nothing is returned.
Only when `try_borrow_mut` succeeds does `ensure_valid` run (abstracted
as `ev`, returning the new node state and whether the compute closure
ran). -/

structure CachedState (V : Type) where
  cached : Option V
deriving Repr, DecidableEq

structure ReadOutcome (V : Type) where
  /-- Node state after the call. -/
  node : CachedState V
  /-- Whether the compute closure was invoked. -/
  computeRan : Bool
  /-- The condition `debug_assert!` checks on the fallback path (`true`
  elsewhere): the cached value must be present. -/
  debugAsserted : Bool
  /-- The value `get_ref` exposes afterwards. -/
  returned : Option V
deriving Repr, DecidableEq

/-- Borrow state of the node's `RefCell` when the read starts: unborrowed,
borrowed shared (a `Ref` from another `get_ref` is alive), or borrowed
exclusively (the `RefMut` of an evaluation higher on the call stack is
alive). -/
inductive BorrowState where
  | free
  | shared
  | exclusive
deriving Repr, DecidableEq

/-- `Value::ensure_valid_and_track_read` from value.rs, indexed by the
borrow state of the node's cell (the tracking of the read into the
runtime's current reader affects only the reader node, not this one, and
is elided).  The `BorrowError` panic of `self.0.borrow()` under an
outstanding exclusive borrow is `Except.error`. -/
def ensureValidAndTrackRead (b : BorrowState)
    (ev : CachedState V → CachedState V × Bool) (n : CachedState V) :
    Except String (ReadOutcome V) :=
  match b with
  | .exclusive => .error "already mutably borrowed"
  | .shared =>
    .ok { node := n, computeRan := false, debugAsserted := n.cached.isSome
          returned := n.cached }
  | .free =>
    let p := ev n
    .ok { node := p.1, computeRan := p.2, debugAsserted := true
          returned := p.1.cached }

/-! ## The versioned revalidation algorithm

The value.rs present in the tree is an earlier iteration that predates the
versioned design and does not implement the `Node` trait runtime.rs
declares (`last_changed`, `track_read_from(last_changed: Version, ..)`)
nor build the `Trace = Vec<(Version, RefCellNodeHandle)>` entries
runtime.rs defines; the crate's current revalidation body is therefore
modelled from the spec on top of those runtime.rs declarations.  A trace
entry is `(recorded Version, dependency id)`; `depChanged i` is dependency
`i`'s current `changed` version (its `last_changed()`). -/

/-- Modelled from the spec: the state of a `Computed` node — the optional
cached value, the trace recorded during the last evaluation, and the
node's own `ValueVersion` (value.rs's versioned `ComputedValue` body,
missing from the tree). -/
structure ComputedState (V : Type) where
  cached : Option V
  trace : List (Version × Nat)
  version : ValueVersion
deriving Repr, DecidableEq

/-- Modelled from the spec: `needs_evaluation = cached_value.is_none() OR
any trace entry's recorded Version < that dependency's current changed
Version`. -/
def needsEvaluation (c : ComputedState V) (depChanged : Nat → Version) : Bool :=
  c.cached.isNone || c.trace.any (fun e => decide (e.1 < depChanged e.2))

/-- Modelled from the spec: `ensure_valid` on a `Computed` node (the
versioned body missing from the tree's value.rs).  Fetch
`validated_version` from the runtime; if the node's own `validated`
already equals it, return immediately.  Otherwise, if evaluation is
needed, discard the old trace, evaluate (the fresh value and the trace the
evaluation records are `freshValue`/`freshTrace`) and stamp the node's
`changed` to the new epoch; stamp `validated` to the new epoch regardless.
Returns the runtime version, the node state and whether the compute
closure ran. -/
def ensureValidComputed (rt : ValueVersion) (c : ComputedState V)
    (depChanged : Nat → Version) (freshValue : V)
    (freshTrace : List (Version × Nat)) :
    ValueVersion × ComputedState V × Bool :=
  let p := validatedVersion rt
  if c.version.validated = p.2 then
    (p.1, c, false)
  else if needsEvaluation c depChanged then
    (p.1,
     { cached := some freshValue, trace := freshTrace
       version := { changed := p.2, validated := p.2 } },
     true)
  else
    (p.1, { c with version := { c.version with validated := p.2 } }, false)

/-! ## The graph-level `set` step -/

/-- A graph node: a `Var` (value plus version) or a `Computed`. -/
inductive NodeData (V : Type) where
  | varNode (value : V) (version : ValueVersion)
  | compNode (c : ComputedState V)

/-- `Node::last_changed` of a graph node. -/
def NodeData.lastChanged : NodeData V → Version
  | .varNode _ ver => ver.changed
  | .compNode c => c.version.changed

/-- The whole dependency graph: node id to node. -/
def GraphState (V : Type) := Nat → NodeData V

/-- The `last_changed` view of a graph, as consulted by trace walks. -/
def depChangedOf (σ : GraphState V) : Nat → Version :=
  fun i => (σ i).lastChanged

/-- Modelled from the spec: `Value::set` (via `ValueInner::apply`) on node
`i` — legal on a `Var` only: bump the node's `changed` to
`runtime.change_version()` and replace the stored value; no other node is
read or written (value.rs's versioned `apply` body, missing from the
tree).  On a `Computed` it is the contract violation of
`Primitive::apply`. -/
def setVar (rt : ValueVersion) (σ : GraphState V) (i : Nat) (x : V) :
    Except String (ValueVersion × GraphState V) :=
  match σ i with
  | .varNode _ ver =>
    let p := changeVersion rt
    .ok (p.1, fun j =>
      if j = i then
        .varNode x { changed := p.2, validated := ver.validated }
      else σ j)
  | .compNode _ => .error "Cannot set a computed value"

/-- A concrete two-node graph: node 0 is a `Var` holding 10, node 1 (and
every other id) a `Computed` that cached 3 after reading node 0 at version
1. -/
def exampleGraph : GraphState Nat := fun j =>
  if j = 0 then NodeData.varNode 10 ⟨1, 1⟩
  else NodeData.compNode ⟨some 3, [(1, 0)], ⟨1, 1⟩⟩

/-- `exampleGraph` after `set`ting node 0 to 20 in runtime epoch `⟨1, 1⟩`. -/
def exampleGraphAfter : GraphState Nat := fun j =>
  if j = 0 then NodeData.varNode 20 ⟨2, 1⟩ else exampleGraph j

/-! ## Claim theorems -/

/-- `drain` yields exactly the suffix of the log from the cursor on. -/
theorem drain_eq_drop (log : List T) (c : Consumer) :
    drain log c = (log.drop c.pos, { pos := max c.pos log.length }) := by
  rw [drain]
  cases h : log.get? c.pos with
  | some v =>
    simp only
    have hlt : c.pos < log.length := by
      simp only [List.get?_eq_getElem?] at h
      by_contra hge
      rw [List.getElem?_eq_none (Nat.le_of_not_lt hge)] at h
      exact Option.noConfusion h
    rw [drain_eq_drop log { pos := c.pos + 1 }]
    have hdrop : log.drop c.pos = v :: log.drop (c.pos + 1) := by
      simp only [List.get?_eq_getElem?] at h
      exact (List.drop_eq_getElem_cons hlt).trans (by
        simp [List.getElem?_eq_getElem hlt] at h
        simp [h])
    have hmax1 : max (c.pos + 1) log.length = log.length := Nat.max_eq_right hlt
    have hmax2 : max c.pos log.length = log.length :=
      Nat.max_eq_right (Nat.le_of_lt hlt)
    simp [hdrop, hmax1, hmax2]
  | none =>
    simp only
    have hge : log.length ≤ c.pos := by
      simp only [List.get?_eq_getElem?] at h
      by_contra hlt
      rw [List.getElem?_eq_getElem (Nat.lt_of_not_le hlt)] at h
      exact Option.noConfusion h
    have : log.drop c.pos = [] := List.drop_eq_nil_of_le hge
    have hmax : max c.pos log.length = c.pos := Nat.max_eq_left hge
    simp [this, hmax]
termination_by log.length - c.pos
decreasing_by
  simp only [List.get?_eq_getElem?] at h
  have hlt : c.pos < log.length := by
    by_contra hge
    rw [List.getElem?_eq_none (Nat.le_of_not_lt hge)] at h
    exact Option.noConfusion h
  omega

/-- C3, counterexample: `Runtime::eval` restores the current-evaluator slot
by a plain assignment after `f()`, with no drop guard, so on the exit path
where `f` propagates a failure the restore never runs.  Concretely: with
the slot previously empty (`none`), evaluating node 5 with a closure that
immediately fails propagates a state whose slot still holds `some 5`, not
the previous `none` — refuting the claim that the slot is restored to its
previous value on every exit path. -/
theorem claim3_counterexample :
    eval 5 (fun s => Except.error ((), s))
        ({ current := none, rest := () } : EvalState Unit) =
      Except.error ((), { current := some 5, rest := () }) ∧
    some 5 ≠ (none : Option Nat) :=
  ⟨rfl, by decide⟩

/-- C3, amended: `Runtime::eval(n, f)` sets the current-evaluator slot to
`n` and runs `f`; on the normal exit path it restores the slot to its
previous value (so nested evaluation that returns normally always leaves
the slot as it found it), but on the exit path where `f` propagates a
failure the restore statement is skipped and the slot keeps whatever `f`
left in it. -/
theorem claim3_eval_exit_paths (n : Nat)
    (f : EvalState α → Except (ε × EvalState α) (EvalState α)) (s : EvalState α) :
    (∀ s2, f { s with current := some n } = .ok s2 →
      eval n f s = .ok { s2 with current := s.current }) ∧
    (∀ e, f { s with current := some n } = .error e → eval n f s = .error e) := by
  constructor
  · intro s2 hf
    simp only [eval, hf]
  · intro e hf
    simp only [eval, hf]

/-- C3, witness: the normal exit path of `eval` at a concrete input
restores the previously empty slot. -/
theorem claim3_witness :
    eval 1 (fun s => (Except.ok s : Except (Unit × EvalState Unit) (EvalState Unit)))
        ({ current := none, rest := () } : EvalState Unit) =
      Except.ok { current := none, rest := () } :=
  (claim3_eval_exit_paths 1 _ _).1 { current := some 1, rest := () } rfl

/-- C4, counterexample: two `RefCellNodeHandle`s built from the same node
storage (data address 0) but through coercion sites with distinct vtable
copies (metadata 0 and 1) compare equal — equality goes through
`as_ptr()`, which discards the metadata — yet `Hash for RefCellNodeHandle`
hashes `Rc::as_ptr`, the raw fat pointer, writing the metadata into the
hasher as well, so the two equal handles feed different streams to the
hasher.  This refutes the claim that equal handles always produce equal
hash values independent of per-call-site dispatch metadata. -/
theorem claim4_counterexample :
    refCellNodeHandleEq ⟨0, 0⟩ ⟨0, 1⟩ = true ∧
    refCellNodeHandleHashStream ⟨0, 0⟩ ≠ refCellNodeHandleHashStream ⟨0, 1⟩ := by
  decide

/-- C4, amended: equality of both `NodePtr` and `RefCellNodeHandle`
depends only on the node's storage address (two handles compare equal iff
they carry the same address), and `NodePtr`'s hash also depends only on
that address, so equal `NodePtr`s always hash equal.  `RefCellNodeHandle`,
however, hashes the full fat pointer — address and dispatch metadata — so
two equal handles are guaranteed equal hash streams only when they also
carry the same metadata. -/
theorem claim4_identity :
    (∀ p q : FatPtr, nodePtrEq p q = true ↔ p.addr = q.addr) ∧
    (∀ p q : FatPtr, nodePtrEq p q = true →
      nodePtrHashStream p = nodePtrHashStream q) ∧
    (∀ p q : FatPtr, refCellNodeHandleEq p q = true ↔ p.addr = q.addr) ∧
    (∀ p q : FatPtr, refCellNodeHandleEq p q = true → p.meta = q.meta →
      refCellNodeHandleHashStream p = refCellNodeHandleHashStream q) := by
  refine ⟨fun p q => ?_, fun p q h => ?_, fun p q => ?_, fun p q h hm => ?_⟩
  · simp [nodePtrEq]
  · simp only [nodePtrEq, beq_iff_eq] at h
    simp [nodePtrHashStream, h]
  · simp [refCellNodeHandleEq]
  · simp only [refCellNodeHandleEq, beq_iff_eq] at h
    simp [refCellNodeHandleHashStream, h, hm]

/-- C4, witness: two `NodePtr`s with the same address but different
metadata compare equal and write identical hash streams. -/
theorem claim4_witness :
    nodePtrEq ⟨3, 4⟩ ⟨3, 7⟩ = true ∧
    nodePtrHashStream ⟨3, 4⟩ = nodePtrHashStream ⟨3, 7⟩ :=
  ⟨(claim4_identity.1 ⟨3, 4⟩ ⟨3, 7⟩).mpr rfl,
   claim4_identity.2.1 ⟨3, 4⟩ ⟨3, 7⟩ ((claim4_identity.1 ⟨3, 4⟩ ⟨3, 7⟩).mpr rfl)⟩

/-- C5, counterexample: with the node's cell exclusively held (the node is
being evaluated higher on the current call stack — a self-reference) and
even with a cached value present, `ensure_valid_and_track_read` does not
return the cached value: the fallback's own `self.0.borrow()` panics with
a `BorrowError` before the `debug_assert!` is reached.  This refutes the
claim that in the exclusively-held case the already-cached value is
returned with its validity asserted as a debug invariant. -/
theorem claim5_counterexample :
    ensureValidAndTrackRead BorrowState.exclusive (fun n => (n, false))
        (⟨some 5⟩ : CachedState Nat) = Except.error "already mutably borrowed" ∧
    (ensureValidAndTrackRead BorrowState.exclusive (fun n => (n, false))
        (⟨some 5⟩ : CachedState Nat)).isOk = false :=
  ⟨rfl, rfl⟩

/-- C5, amended: a read of a node whose cell is already borrowed never
re-enters evaluation — whatever the `ensure_valid` step `ev` would do, the
compute closure is not invoked.  But only when the outstanding borrow is
shared (another `get_ref` reference is still alive) does the call fall
back to the already-cached value, with its presence checked by
`debug_assert!` rather than surfaced as a user error; when the cell is
exclusively held (a self-reference/cycle) the fallback's shared borrow
itself panics (`BorrowError`) and no value is returned. -/
theorem claim5_borrowed_read (ev : CachedState V → CachedState V × Bool)
    (n : CachedState V) :
    ensureValidAndTrackRead BorrowState.exclusive ev n =
      Except.error "already mutably borrowed" ∧
    ensureValidAndTrackRead BorrowState.shared ev n =
      Except.ok { node := n, computeRan := false
                  debugAsserted := n.cached.isSome, returned := n.cached } :=
  ⟨rfl, rfl⟩

/-- C6: each run of the memoizing compute body built by `Runtime::memo`
invokes the key closure exactly once; on a cache hit (a previous pair
exists and the new key equals the previous key) it returns the previous
value with the cache untouched and the compute closure not invoked; on a
miss (no previous pair, or the keys differ) it invokes the compute closure
once, stores the new pair and returns the new value. -/
theorem claim6_memo (eqK : K → K → Bool) (compute : K → T)
    (prev : Option (K × T)) (k : K) :
    (memoBody eqK compute prev k).keyInvocations = 1 ∧
    (∀ pk pv, prev = some (pk, pv) → eqK k pk = true →
      memoBody eqK compute prev k =
        { result := pv, cache := prev, keyInvocations := 1
          computeInvocations := 0 }) ∧
    ((prev = none ∨ ∃ pk pv, prev = some (pk, pv) ∧ eqK k pk = false) →
      memoBody eqK compute prev k =
        { result := compute k, cache := some (k, compute k), keyInvocations := 1
          computeInvocations := 1 }) := by
  refine ⟨?_, ?_, ?_⟩
  · cases prev with
    | none => simp [memoBody]
    | some p =>
      cases p with
      | mk pk pv =>
        by_cases h : eqK k pk <;> simp [memoBody, h]
  · intro pk pv hp he
    subst hp
    simp [memoBody, he]
  · intro h
    cases h with
    | inl h => simp [memoBody, h]
    | inr h =>
      obtain ⟨pk, pv, hp, he⟩ := h
      subst hp
      simp [memoBody, he]

/-- C6, witness: a concrete cache hit returns the cached value without
running the compute closure. -/
theorem claim6_witness :
    memoBody Nat.beq (fun n => n + 1) (some (2, 9)) 2 =
      { result := 9, cache := some (2, 9), keyInvocations := 1
        computeInvocations := 0 } :=
  (claim6_memo Nat.beq (fun n => n + 1) (some (2, 9)) 2).2.1 2 9 rfl rfl

/-- C8: the contract violations abort at the call site: `set`/`apply` on a
`Computed` panics, `take` on a `Var` panics, and asking a `Var` to record
an outgoing dependency edge (`track_read_from`) panics — none of them
returns a result or silently succeeds. -/
theorem claim8_contract_violations (f : V → V) (v : V) (cval : Option V)
    (ev : Option V → Option V) (tr : List E) (entry : E) :
    Primitive.apply (Primitive.computed cval) f =
      Except.error "Cannot set a computed value" ∧
    takeValue ev (Primitive.var v) = Except.error "Cannot take a var" ∧
    trackReadFrom (Primitive.var v) tr entry =
      Except.error "A var does not support tracing dependencies" :=
  ⟨rfl, rfl, rfl⟩

/-- C10: the runtime's `ValueVersion` satisfies `validated <= changed`
initially and after each of `change_version`, `validated_version`,
`new_var_version` and `new_computed_version`; `change_version` always
leaves `changed` strictly greater than `validated`, bumps `changed`
exactly when `validated == changed`, and calling it again before the next
`validated_version` changes nothing and returns the same version. -/
theorem claim10_runtime_version :
    versionInvariant ValueVersion.init ∧
    ∀ s : ValueVersion, versionInvariant s →
      versionInvariant (changeVersion s).1 ∧
      versionInvariant (validatedVersion s).1 ∧
      versionInvariant (newVarVersion s).1 ∧
      versionInvariant (newComputedVersion s).1 ∧
      (changeVersion s).1.validated < (changeVersion s).1.changed ∧
      (s.validated = s.changed ↔ (changeVersion s).1.changed = s.changed + 1) ∧
      changeVersion (changeVersion s).1 = ((changeVersion s).1, (changeVersion s).2) := by
  refine ⟨Nat.le_refl 0, fun s h => ?_⟩
  obtain ⟨sc, sv⟩ := s
  simp only [versionInvariant] at h ⊢
  by_cases hc : sv = sc
  · subst hc
    simp [changeVersion, validatedVersion, newVarVersion, newComputedVersion]
  · have hlt : sv < sc := by omega
    refine ⟨?_, ?_, ?_, ?_, ?_, ?_, ?_⟩ <;>
      simp [changeVersion, validatedVersion, newVarVersion, newComputedVersion,
        hc, hlt] <;>
      omega

/-- On a runtime satisfying the invariant, `validated_version` catches
`validated` up to `changed` and returns it. -/
theorem validatedVersion_spec (s : ValueVersion) (h : versionInvariant s) :
    validatedVersion s = ({ changed := s.changed, validated := s.changed }, s.changed) := by
  obtain ⟨sc, sv⟩ := s
  simp only [versionInvariant] at h
  unfold validatedVersion
  by_cases hc : sv < sc
  · simp [hc]
  · have he : sv = sc := by omega
    subst he
    simp [hc]

/-- A second `validated_version` in the same epoch changes nothing and
returns the same version. -/
theorem validatedVersion_idem (s : ValueVersion) (h : versionInvariant s) :
    validatedVersion (validatedVersion s).1 = ((validatedVersion s).1, (validatedVersion s).2) := by
  rw [validatedVersion_spec s h]
  unfold validatedVersion
  simp

/-- After a read validated the runtime, `change_version` returns a version
strictly above anything at or below the runtime's `validated`. -/
theorem changeVersion_gt_of_le (s : ValueVersion) (hinv : versionInvariant s)
    (verR : Nat) (hle : verR ≤ s.validated) : verR < (changeVersion s).2 := by
  simp only [versionInvariant] at hinv
  unfold changeVersion
  by_cases hc : s.validated = s.changed
  · rw [if_pos hc]
    show verR < s.changed + 1
    omega
  · rw [if_neg hc]
    show verR < s.changed
    omega

/-- `ensure_valid` on the fast path: a node already validated this epoch
is returned untouched and the compute closure does not run. -/
theorem ensureValidComputed_fastpath (rt : ValueVersion) (c : ComputedState V)
    (depChanged : Nat → Version) (fv : V) (ft : List (Version × Nat))
    (h : c.version.validated = (validatedVersion rt).2) :
    ensureValidComputed rt c depChanged fv ft = ((validatedVersion rt).1, c, false) := by
  simp only [ensureValidComputed]
  rw [if_pos h]

/-- `ensure_valid` always leaves the runtime at `validated_version`'s
result state. -/
theorem ensureValidComputed_runtime (rt : ValueVersion) (c : ComputedState V)
    (depChanged : Nat → Version) (fv : V) (ft : List (Version × Nat)) :
    (ensureValidComputed rt c depChanged fv ft).1 = (validatedVersion rt).1 := by
  simp only [ensureValidComputed]
  by_cases h : c.version.validated = (validatedVersion rt).2
  · rw [if_pos h]
  · rw [if_neg h]
    by_cases hn : needsEvaluation c depChanged = true
    · rw [if_pos hn]
    · rw [if_neg hn]

/-- `ensure_valid` always leaves the node stamped `validated` at the new
epoch. -/
theorem ensureValidComputed_validated (rt : ValueVersion) (c : ComputedState V)
    (depChanged : Nat → Version) (fv : V) (ft : List (Version × Nat)) :
    (ensureValidComputed rt c depChanged fv ft).2.1.version.validated =
      (validatedVersion rt).2 := by
  simp only [ensureValidComputed]
  by_cases h : c.version.validated = (validatedVersion rt).2
  · rw [if_pos h]
    exact h
  · rw [if_neg h]
    by_cases hn : needsEvaluation c depChanged = true
    · rw [if_pos hn]
    · rw [if_neg hn]

/-- C1: on the revalidation step of a `Computed` node that has not yet
been confirmed for the current epoch (its own `validated` differs from the
runtime's `validated_version`), `ensure_valid` re-runs the compute closure
if and only if the cached value is absent or some trace entry's recorded
version is strictly below that dependency's current `changed` version;
when neither holds the compute closure is not invoked and the cached value
is returned unchanged. -/
theorem claim1_needs_evaluation (rt : ValueVersion) (c : ComputedState V)
    (depChanged : Nat → Version) (freshValue : V) (freshTrace : List (Version × Nat))
    (h : c.version.validated ≠ (validatedVersion rt).2) :
    ((ensureValidComputed rt c depChanged freshValue freshTrace).2.2 = true ↔
      (c.cached = none ∨ ∃ e ∈ c.trace, e.1 < depChanged e.2)) ∧
    ((ensureValidComputed rt c depChanged freshValue freshTrace).2.2 = false →
      (ensureValidComputed rt c depChanged freshValue freshTrace).2.1.cached =
        c.cached) := by
  have hiff : needsEvaluation c depChanged = true ↔
      (c.cached = none ∨ ∃ e ∈ c.trace, e.1 < depChanged e.2) := by
    simp [needsEvaluation, List.any_eq_true]
  by_cases hn : needsEvaluation c depChanged = true
  · have he : ensureValidComputed rt c depChanged freshValue freshTrace =
        ((validatedVersion rt).1,
         { cached := some freshValue, trace := freshTrace
           version := { changed := (validatedVersion rt).2
                        validated := (validatedVersion rt).2 } },
         true) := by
      simp only [ensureValidComputed]
      rw [if_neg h, if_pos hn]
    rw [he]
    exact ⟨iff_of_true rfl (hiff.mp hn), fun hf => absurd hf (by simp)⟩
  · have he : ensureValidComputed rt c depChanged freshValue freshTrace =
        ((validatedVersion rt).1,
         { c with version := { c.version with validated := (validatedVersion rt).2 } },
         false) := by
      simp only [ensureValidComputed]
      rw [if_neg h, if_neg hn]
    rw [he]
    exact ⟨iff_of_false (by simp) (fun hr => hn (hiff.mpr hr)), fun _ => rfl⟩

/-- C1, witness: a node with a cached value and an empty trace, read in a
fresh epoch, is left with its cached value unchanged. -/
theorem claim1_witness :
    (ensureValidComputed ⟨1, 0⟩ ⟨some 5, [], ⟨0, 0⟩⟩ (fun _ => 0) 7 []).2.1.cached =
      some 5 :=
  (claim1_needs_evaluation ⟨1, 0⟩ ⟨some 5, [], ⟨0, 0⟩⟩ (fun _ => 0) 7 []
    (by decide)).2 (by decide)

/-- C9: reading a `Computed` twice in a row — two `ensure_valid` passes
against the same runtime state and the same dependency versions (no
intervening `set`: a `set` would bump a dependency's `changed` and the
runtime's version) — never runs the compute closure on the second pass,
and the second pass leaves the node exactly as the first pass left it. -/
theorem claim9_idempotent_read (rt : ValueVersion) (c : ComputedState V)
    (depChanged : Nat → Version) (v1 v2 : V) (t1 t2 : List (Version × Nat))
    (hinv : versionInvariant rt) :
    (ensureValidComputed (ensureValidComputed rt c depChanged v1 t1).1
        (ensureValidComputed rt c depChanged v1 t1).2.1 depChanged v2 t2).2.2 =
      false ∧
    (ensureValidComputed (ensureValidComputed rt c depChanged v1 t1).1
        (ensureValidComputed rt c depChanged v1 t1).2.1 depChanged v2 t2).2.1 =
      (ensureValidComputed rt c depChanged v1 t1).2.1 := by
  have h1 := ensureValidComputed_runtime rt c depChanged v1 t1
  have h2 := ensureValidComputed_validated rt c depChanged v1 t1
  have h3 := validatedVersion_idem rt hinv
  have hfast : (ensureValidComputed rt c depChanged v1 t1).2.1.version.validated =
      (validatedVersion (ensureValidComputed rt c depChanged v1 t1).1).2 := by
    rw [h1, h3]
    exact h2
  rw [ensureValidComputed_fastpath _ _ depChanged v2 t2 hfast]
  exact ⟨rfl, rfl⟩

/-- C9, witness: a fresh computed node read twice in a row runs its
compute closure only on the first read. -/
theorem claim9_witness :
    (ensureValidComputed (ensureValidComputed ⟨1, 0⟩ ⟨none, [], ⟨1, 0⟩⟩ (fun _ => 0) 4 []).1
        (ensureValidComputed ⟨1, 0⟩ ⟨none, [], ⟨1, 0⟩⟩ (fun _ => 0) 4 []).2.1
        (fun _ => 0) 5 []).2.2 = false :=
  (claim9_idempotent_read ⟨1, 0⟩ ⟨none, [], ⟨1, 0⟩⟩ (fun _ => 0) 4 5 [] []
    (by decide)).1

/-- C7: a `Consumer` clone is an independent reader starting at the cloned
position: after any further sequence of productions, draining the clone
yields exactly the values past its position — the values the original had
not yet consumed followed by everything produced after the clone point, in
production order — and ends at the end of the log; the original (or any
sibling clone) observes exactly the same sequence, since draining never
mutates the shared log. -/
theorem claim7_stream_multicast (log vs : List T) (c : Consumer)
    (h : c.pos ≤ log.length) :
    (drain (produceAll log vs) (cloneConsumer c)).1 = log.drop c.pos ++ vs ∧
    (drain (produceAll log vs) c).1 = log.drop c.pos ++ vs ∧
    (drain (produceAll log vs) (cloneConsumer c)).2.pos = (produceAll log vs).length := by
  have hd := drain_eq_drop (produceAll log vs) c
  have hdrop : (produceAll log vs).drop c.pos = log.drop c.pos ++ vs := by
    unfold produceAll
    exact List.drop_append_of_le_length h
  have hmax : max c.pos (produceAll log vs).length = (produceAll log vs).length := by
    apply Nat.max_eq_right
    unfold produceAll
    rw [List.length_append]
    omega
  unfold cloneConsumer
  rw [hd, hdrop]
  exact ⟨rfl, rfl, hmax⟩

/-- C7, witness: a clone taken at position 1 of a three-element log drains
the remaining element plus the value produced after the clone point. -/
theorem claim7_witness :
    (drain (produceAll [10, 20, 30] [40]) (cloneConsumer ⟨1⟩)).1 =
      [10, 20, 30].drop 1 ++ [40] :=
  (claim7_stream_multicast [10, 20, 30] [40] ⟨1⟩ (by decide)).1

/-- C2: `set` on a `Var` node mutates only that node — it bumps the node's
`changed` to `change_version` and replaces the stored value, and every
other node of the graph (in particular every reader) is left untouched;
downstream staleness is discovered only later, by each reader on its own
next read: any reader whose trace recorded this `Var` at a version the
runtime had validated now finds `needs_evaluation` true against the
updated graph. -/
theorem claim2_set_frame (rt : ValueVersion) (σ : GraphState V) (i : Nat)
    (x v : V) (ver : ValueVersion) (hvar : σ i = NodeData.varNode v ver)
    (hinv : versionInvariant rt) :
    (∃ rt2 σ2, setVar rt σ i x = Except.ok (rt2, σ2)) ∧
    ∀ rt2 σ2, setVar rt σ i x = Except.ok (rt2, σ2) →
      rt2 = (changeVersion rt).1 ∧
      (∀ j, j ≠ i → σ2 j = σ j) ∧
      σ2 i = NodeData.varNode x { changed := (changeVersion rt).2
                                  validated := ver.validated } ∧
      (∀ j cs verR, σ j = NodeData.compNode cs → (verR, i) ∈ cs.trace →
        verR ≤ rt.validated → needsEvaluation cs (depChangedOf σ2) = true) := by
  have hset : setVar rt σ i x = Except.ok ((changeVersion rt).1, fun j =>
      if j = i then
        NodeData.varNode x { changed := (changeVersion rt).2
                             validated := ver.validated }
      else σ j) := by
    unfold setVar
    rw [hvar]
  refine ⟨⟨_, _, hset⟩, fun rt2 σ2 heq => ?_⟩
  rw [hset] at heq
  injection heq with h2
  injection h2 with hrt hσ
  refine ⟨hrt.symm, ?_, ?_, ?_⟩
  · intro j hj
    rw [← hσ]
    exact if_neg hj
  · rw [← hσ]
    exact if_pos rfl
  · intro j cs verR hcomp hmem hle
    have hdep : depChangedOf σ2 i = (changeVersion rt).2 := by
      unfold depChangedOf
      rw [← hσ]
      simp [NodeData.lastChanged]
    unfold needsEvaluation
    rw [Bool.or_eq_true, List.any_eq_true]
    refine Or.inr ⟨(verR, i), hmem, ?_⟩
    rw [decide_eq_true_iff, hdep]
    exact changeVersion_gt_of_le rt hinv verR hle

/-- C2, witness: in the concrete two-node graph, setting the `Var` leaves
the reader's node untouched, and on its next read the reader finds
`needs_evaluation` true. -/
theorem claim2_witness :
    needsEvaluation (⟨some 3, [(1, 0)], ⟨1, 1⟩⟩ : ComputedState Nat)
      (depChangedOf exampleGraphAfter) = true :=
  ((claim2_set_frame ⟨1, 1⟩ exampleGraph 0 20 10 ⟨1, 1⟩ rfl (by decide)).2
    (changeVersion ⟨1, 1⟩).1 exampleGraphAfter rfl).2.2.2 1
    ⟨some 3, [(1, 0)], ⟨1, 1⟩⟩ 1 rfl (by decide) (by decide)

/-- C10, witness: a concrete runtime version with `validated < changed`
keeps the invariant and stays strictly invalidated after
`change_version`. -/
theorem claim10_witness :
    versionInvariant (changeVersion ⟨2, 1⟩).1 ∧
    (changeVersion ⟨2, 1⟩).1.validated < (changeVersion ⟨2, 1⟩).1.changed :=
  ⟨(claim10_runtime_version.2 ⟨2, 1⟩ (by decide)).1,
   (claim10_runtime_version.2 ⟨2, 1⟩ (by decide)).2.2.2.2.1⟩

end Granularity
